import Mathlib

/-!
Verification of the shift-pay core of work_pay_log (src/main.rs).

The core consists of two pure functions:
  parse_hhmm            (main.rs lines 533-538)
  calculate_pay_summary (main.rs lines 468-531)

Embedding conventions:
  - Rust i32 locals are modelled with Nat: every run of the source keeps
    start_min, end_min, cursor, regular_minutes, overtime_minutes nonnegative
    (start_min, end_min come from a valid clock time, the loop only adds
    nonnegative segment lengths, and the deduction clamps at 0 with max(0)),
    and Nat truncated subtraction coincides with the source's guarded
    subtractions at every site, as noted next to each definition.
  - Rust f64 arithmetic on hours and pay is modelled with Rat; the source
    expressions (minutes / 60.0, hours * rate, * 1.5) are translated verbatim.
  - Rust u32::from_str is modelled by parseUint: an optional leading plus
    sign followed by one or more ASCII decimal digits, value unbounded.
    The source rejects values not fitting u32 (overflow); every such value
    is at least 24 (resp. 60) and is rejected by the range check in
    NaiveTime::from_hms_opt exactly as in the model, so the two parsers
    fail on the same inputs.
  - Option models both Rust Option returns; NaiveTime::from_hms_opt with
    seconds 0 succeeds exactly when hour < 24 and minute < 60.
-/

/-- Constant MINUTES_PER_DAY from calculate_pay_summary (main.rs line 469). -/
def MINUTES_PER_DAY : ℕ := 24 * 60

/-- Constant OVERTIME_START_MIN, 15:30 as minutes (main.rs line 470). -/
def OVERTIME_START_MIN : ℕ := 15 * 60 + 30

/-- Constant LUNCH_BREAK_MIN (main.rs line 471). -/
def LUNCH_BREAK_MIN : ℕ := 30

/-- A validated clock time, the image of chrono's NaiveTime as produced by
parse_hhmm (seconds are always 0, so only hour and minute are kept; the
bounds are the ones NaiveTime::from_hms_opt enforces). -/
structure TimeOfDay where
  hour : ℕ
  minute : ℕ
  hour_lt : hour < 24
  minute_lt : minute < 60

/-- Value of an ASCII decimal digit, none for any other character
(the digit grammar of Rust u32::from_str). -/
def digitVal (c : Char) : Option ℕ :=
  if h : ('0' : Char) ≤ c ∧ c ≤ ('9' : Char) then some (c.toNat - ('0' : Char).toNat)
  else none

/-- Accumulating decimal parse over a list of characters; fails on the first
non-digit. -/
def parseDigitsAux : List Char → ℕ → Option ℕ
  | [], acc => some acc
  | c :: cs, acc =>
    match digitVal c with
    | some d => parseDigitsAux cs (10 * acc + d)
    | none => none

/-- Parse of a nonempty all-digit string (Rust u32::from_str after the
optional sign has been stripped; the empty string is rejected). -/
def parseDigits : List Char → Option ℕ
  | [] => none
  | c :: cs => parseDigitsAux (c :: cs) 0

/-- Model of str::parse::&lt;u32&gt; as used in parse_hhmm (main.rs lines 535-536):
an optional leading plus sign, then one or more decimal digits. -/
def parseUint (cs : List Char) : Option ℕ :=
  match cs with
  | '+' :: rest => parseDigits rest
  | _ => parseDigits cs

/-- Model of str::split_once with separator colon (main.rs line 534): the
part before the first colon and the part after it, none when no colon
occurs. -/
def splitOnceColon : List Char → Option (List Char × List Char)
  | [] => none
  | c :: cs =>
    if c = ':' then some ([], cs)
    else
      match splitOnceColon cs with
      | some (pre, post) => some (c :: pre, post)
      | none => none

/-- Embedding of parse_hhmm (main.rs lines 533-538): split at the first
colon, parse both parts as nonnegative integers, then build the time if
hour and minute are in range (NaiveTime::from_hms_opt with seconds 0). -/
def parse_hhmm (s : String) : Option TimeOfDay :=
  match splitOnceColon s.toList with
  | none => none
  | some (h, m) =>
    match parseUint h, parseUint m with
    | some hh, some mm =>
      if hrange : hh < 24 ∧ mm < 60 then some ⟨hh, mm, hrange.1, hrange.2⟩
      else none
    | _, _ => none

/-- Minutes since midnight of a clock time
(num_seconds_from_midnight() / 60, main.rs lines 476-477). -/
def toMinutes (t : TimeOfDay) : ℕ := t.hour * 60 + t.minute

/-- The normalizer step of calculate_pay_summary (main.rs lines 478-480):
if end_min is not strictly after start_min, roll the end over to the next
day. -/
def normalizeEnd (start_min end_min : ℕ) : ℕ :=
  if end_min ≤ start_min then end_min + MINUTES_PER_DAY else end_min

/-- Normalized duration of a shift in minutes (total_duration,
main.rs line 481). -/
def shiftDuration (t1 t2 : TimeOfDay) : ℕ :=
  normalizeEnd (toMinutes t1) (toMinutes t2) - toMinutes t1

/-- The segmentation while loop of calculate_pay_summary (main.rs lines
486-503), as a recursive function on the loop state (cursor and the two
accumulators).  Each iteration computes the current calendar day's start,
classifies the segment up to the day's overtime boundary (or the day's
end) and advances the cursor; segment_end - cursor is nonnegative in the
source because segment_end > cursor on every taken branch. -/
def segLoop (end_min cursor reg ot : ℕ) : ℕ × ℕ :=
  if h1 : cursor < end_min then
    let day_start := cursor / MINUTES_PER_DAY * MINUTES_PER_DAY
    if h2 : cursor < day_start + OVERTIME_START_MIN then
      let segment_end := min end_min (day_start + OVERTIME_START_MIN)
      segLoop end_min segment_end (reg + (segment_end - cursor)) ot
    else
      let segment_end := min end_min (day_start + MINUTES_PER_DAY)
      segLoop end_min segment_end reg (ot + (segment_end - cursor))
  else (reg, ot)
termination_by end_min - cursor
decreasing_by
  · exact Nat.sub_lt_sub_left h1 (lt_min h1 h2)
  · exact Nat.sub_lt_sub_left h1 (lt_min h1 (Nat.lt_div_mul_add (by decide)))

/-- The lunch deduction of calculate_pay_summary (main.rs lines 505-515):
remove the lunch from regular minutes first; if they do not suffice, zero
them and remove the remainder from overtime minutes.  The source clamps
overtime at zero with (overtime_minutes - remaining_lunch).max(0), which
Nat truncated subtraction reproduces exactly. -/
def deductLunch (regular_minutes overtime_minutes lunch : ℕ) : ℕ × ℕ :=
  if lunch ≤ regular_minutes then (regular_minutes - lunch, overtime_minutes)
  else (0, overtime_minutes - (lunch - regular_minutes))

/-- The post-deduction (regular_minutes, overtime_minutes) pair of
calculate_pay_summary for two parsed times: normalize, segment, deduct
min(LUNCH_BREAK_MIN, total_duration) (main.rs lines 476-515). -/
def workedPair (s e : TimeOfDay) : ℕ × ℕ :=
  let start_min := toMinutes s
  let end_min := normalizeEnd start_min (toMinutes e)
  let p := segLoop end_min start_min 0 0
  deductLunch p.1 p.2 (min LUNCH_BREAK_MIN (end_min - start_min))

/-- The result record of calculate_pay_summary (main.rs lines 456-460),
with f64 fields modelled as Rat. -/
structure PaySummary where
  regular_hours : ℚ
  overtime_hours : ℚ
  total_pay : ℚ
deriving DecidableEq

/-- Embedding of calculate_pay_summary (main.rs lines 468-531).  The two
early returns on parse failure become the match; total_duration ≤ 0 is
total_duration = 0 over Nat, likewise worked_minutes ≤ 0; the hour and pay
formulas of lines 522-524 are translated verbatim with 1.5 as 3/2. -/
def calculate_pay_summary (start_s end_s : String) (base_rate : ℚ) :
    Option PaySummary :=
  match parse_hhmm start_s, parse_hhmm end_s with
  | some s, some e =>
    let start_min := toMinutes s
    let end_min := normalizeEnd start_min (toMinutes e)
    if end_min - start_min = 0 then none
    else
      let q := workedPair s e
      if q.1 + q.2 = 0 then none
      else
        let regular_hours : ℚ := (q.1 : ℚ) / 60
        let overtime_hours : ℚ := (q.2 : ℚ) / 60
        some { regular_hours := regular_hours,
               overtime_hours := overtime_hours,
               total_pay := regular_hours * base_rate
                 + overtime_hours * base_rate * (3 / 2) }
  | _, _ => none

/-! ## Helper lemmas about the embedded definitions -/

lemma segLoop_sum_aux : ∀ (fuel end_min cursor reg ot : ℕ), end_min - cursor ≤ fuel →
    (segLoop end_min cursor reg ot).1 + (segLoop end_min cursor reg ot).2
      = reg + ot + (end_min - cursor) := by
  intro fuel
  induction fuel with
  | zero =>
    intro e c reg ot hf
    rw [segLoop]
    have h1 : ¬ c < e := by omega
    simp only [dif_neg h1]
    omega
  | succ n ih =>
    intro e c reg ot hf
    rw [segLoop]
    by_cases h1 : c < e
    · by_cases h2 : c < c / MINUTES_PER_DAY * MINUTES_PER_DAY + OVERTIME_START_MIN
      · simp only [dif_pos h1, dif_pos h2]
        have hc : c < min e (c / MINUTES_PER_DAY * MINUTES_PER_DAY + OVERTIME_START_MIN) :=
          lt_min h1 h2
        have hle : min e (c / MINUTES_PER_DAY * MINUTES_PER_DAY + OVERTIME_START_MIN) ≤ e :=
          min_le_left _ _
        rw [ih e _ _ _ (by omega)]
        omega
      · simp only [dif_pos h1, dif_neg h2]
        have hc : c < min e (c / MINUTES_PER_DAY * MINUTES_PER_DAY + MINUTES_PER_DAY) :=
          lt_min h1 (Nat.lt_div_mul_add (by decide))
        have hle : min e (c / MINUTES_PER_DAY * MINUTES_PER_DAY + MINUTES_PER_DAY) ≤ e :=
          min_le_left _ _
        rw [ih e _ _ _ (by omega)]
        omega
    · simp only [dif_neg h1]
      omega

/-- The segmentation loop conserves minutes: whatever the incoming
accumulators, it adds exactly end_min - cursor minutes between them. -/
lemma segLoop_sum (end_min cursor reg ot : ℕ) :
    (segLoop end_min cursor reg ot).1 + (segLoop end_min cursor reg ot).2
      = reg + ot + (end_min - cursor) :=
  segLoop_sum_aux (end_min - cursor) end_min cursor reg ot le_rfl

/-- Componentwise description of the lunch deduction: regular minutes are
reduced first, overtime pays the remainder, both clamped at zero. -/
lemma deductLunch_eq (reg ot lunch : ℕ) :
    deductLunch reg ot lunch = (reg - lunch, ot - (lunch - reg)) := by
  unfold deductLunch
  by_cases h : lunch ≤ reg
  · simp only [if_pos h, Prod.mk.injEq, true_and]
    omega
  · simp only [if_neg h, Prod.mk.injEq, and_true]
    omega

/-- When the lunch fits into the worked time, the deduction removes exactly
lunch minutes in total. -/
lemma deductLunch_sum (reg ot lunch : ℕ) (h : lunch ≤ reg + ot) :
    (deductLunch reg ot lunch).1 + (deductLunch reg ot lunch).2 + lunch = reg + ot := by
  rw [deductLunch_eq]
  dsimp only
  omega

/-- A valid clock time is strictly below 24 hours of minutes. -/
lemma toMinutes_lt (t : TimeOfDay) : toMinutes t < MINUTES_PER_DAY := by
  have h1 := t.hour_lt
  have h2 := t.minute_lt
  unfold toMinutes MINUTES_PER_DAY
  omega

/-- The normalized duration of any pair of valid clock times is between 1
and 1440 minutes. -/
lemma shiftDuration_bounds (t1 t2 : TimeOfDay) :
    1 ≤ shiftDuration t1 t2 ∧ shiftDuration t1 t2 ≤ MINUTES_PER_DAY := by
  have h1 := toMinutes_lt t1
  have h2 := toMinutes_lt t2
  unfold shiftDuration normalizeEnd at *
  by_cases h : toMinutes t2 ≤ toMinutes t1
  · simp only [if_pos h]
    omega
  · simp only [if_neg h]
    omega

/-- The post-deduction pair sums to duration minus lunch. -/
lemma workedPair_sum (t1 t2 : TimeOfDay) :
    (workedPair t1 t2).1 + (workedPair t1 t2).2
      = shiftDuration t1 t2 - min LUNCH_BREAK_MIN (shiftDuration t1 t2) := by
  unfold workedPair
  dsimp only
  rw [deductLunch_eq]
  dsimp only
  have hsum := segLoop_sum (normalizeEnd (toMinutes t1) (toMinutes t2)) (toMinutes t1) 0 0
  have hb := shiftDuration_bounds t1 t2
  unfold shiftDuration at *
  unfold LUNCH_BREAK_MIN MINUTES_PER_DAY at *
  omega

/-- For parsed inputs the computation reduces to the workedPair test: only
the NoWorkableTime check separates failure from a summary, because the
duration guard cannot fire (shiftDuration_bounds). -/
lemma calculate_pay_summary_eq (s1 s2 : String) (r : ℚ) (t1 t2 : TimeOfDay)
    (h1 : parse_hhmm s1 = some t1) (h2 : parse_hhmm s2 = some t2) :
    calculate_pay_summary s1 s2 r =
      if (workedPair t1 t2).1 + (workedPair t1 t2).2 = 0 then none
      else some { regular_hours := ((workedPair t1 t2).1 : ℚ) / 60,
                  overtime_hours := ((workedPair t1 t2).2 : ℚ) / 60,
                  total_pay := ((workedPair t1 t2).1 : ℚ) / 60 * r
                    + ((workedPair t1 t2).2 : ℚ) / 60 * r * (3 / 2) } := by
  have hd := shiftDuration_bounds t1 t2
  unfold shiftDuration at hd
  unfold calculate_pay_summary
  rw [h1, h2]
  dsimp only
  rw [if_neg (by omega)]

/-- When the whole normalized interval ends at or before the first day's
overtime boundary, the loop classifies it in one regular segment. -/
lemma segLoop_all_regular (e c reg ot : ℕ) (hce : c < e)
    (he : e ≤ OVERTIME_START_MIN) :
    segLoop e c reg ot = (reg + (e - c), ot) := by
  have hOT : OVERTIME_START_MIN = 930 := rfl
  rw [segLoop]
  have h2 : c < c / MINUTES_PER_DAY * MINUTES_PER_DAY + OVERTIME_START_MIN := by
    have hz := Nat.zero_le (c / MINUTES_PER_DAY * MINUTES_PER_DAY)
    omega
  simp only [dif_pos hce, dif_pos h2]
  have hmin : min e (c / MINUTES_PER_DAY * MINUTES_PER_DAY + OVERTIME_START_MIN) = e :=
    min_eq_left (by have hz := Nat.zero_le (c / MINUTES_PER_DAY * MINUTES_PER_DAY); omega)
  rw [hmin, segLoop]
  simp only [lt_irrefl, dite_false]

/-- splitOnceColon fails exactly when the list has no colon. -/
lemma splitOnceColon_none_iff : ∀ cs : List Char, splitOnceColon cs = none ↔ ':' ∉ cs := by
  intro cs
  induction cs with
  | nil => simp [splitOnceColon]
  | cons c cs ih =>
    by_cases hc : c = ':'
    · subst hc
      simp [splitOnceColon]
    · rw [splitOnceColon]
      rw [if_neg hc]
      cases hsp : splitOnceColon cs with
      | none =>
        have : ':' ∉ cs := (ih).mp hsp
        simp only [List.mem_cons]
        constructor
        · intro _ hor
          rcases hor with h | h
          · exact hc h.symm
          · exact this h
        · intro _
          trivial
      | some pr =>
        obtain ⟨pre, post⟩ := pr
        have hmem : ':' ∈ cs := by
          by_contra hn
          rw [← ih] at hn
          rw [hsp] at hn
          cases hn
        simp only [List.mem_cons]
        constructor
        · intro h
          cases h
        · intro hor
          exact absurd (Or.inr hmem) hor

lemma parse_2300 : parse_hhmm "23:00" = some ⟨23, 0, by norm_num, by norm_num⟩ := rfl

lemma parse_0100 : parse_hhmm "01:00" = some ⟨1, 0, by norm_num, by norm_num⟩ := rfl

lemma parse_1400 : parse_hhmm "14:00" = some ⟨14, 0, by norm_num, by norm_num⟩ := rfl

lemma parse_1700 : parse_hhmm "17:00" = some ⟨17, 0, by norm_num, by norm_num⟩ := rfl

lemma parse_0900 : parse_hhmm "09:00" = some ⟨9, 0, by norm_num, by norm_num⟩ := rfl

lemma parse_0915 : parse_hhmm "09:15" = some ⟨9, 15, by norm_num, by norm_num⟩ := rfl

lemma parse_1500 : parse_hhmm "15:00" = some ⟨15, 0, by norm_num, by norm_num⟩ := rfl

lemma segLoop_1020_840 : segLoop 1020 840 0 0 = (90, 90) := by
  rw [segLoop]
  norm_num [MINUTES_PER_DAY, OVERTIME_START_MIN]
  rw [segLoop]
  norm_num [MINUTES_PER_DAY, OVERTIME_START_MIN]
  rw [segLoop]
  norm_num

lemma segLoop_1500_1380 : segLoop 1500 1380 0 0 = (60, 60) := by
  rw [segLoop]
  norm_num [MINUTES_PER_DAY, OVERTIME_START_MIN]
  rw [segLoop]
  norm_num [MINUTES_PER_DAY, OVERTIME_START_MIN]
  rw [segLoop]
  norm_num

lemma workedPair_1400_1700 :
    workedPair ⟨14, 0, by norm_num, by norm_num⟩ ⟨17, 0, by norm_num, by norm_num⟩
      = (60, 90) := by
  unfold workedPair
  norm_num [toMinutes, normalizeEnd, MINUTES_PER_DAY, LUNCH_BREAK_MIN, segLoop_1020_840,
    deductLunch]

lemma workedPair_2300_0100 :
    workedPair ⟨23, 0, by norm_num, by norm_num⟩ ⟨1, 0, by norm_num, by norm_num⟩
      = (30, 60) := by
  unfold workedPair
  norm_num [toMinutes, normalizeEnd, MINUTES_PER_DAY, LUNCH_BREAK_MIN, segLoop_1500_1380,
    deductLunch]

lemma calc_1400_1700 (r : ℚ) :
    calculate_pay_summary "14:00" "17:00" r
      = some { regular_hours := 1, overtime_hours := 3 / 2,
               total_pay := 1 * r + 3 / 2 * r * (3 / 2) } := by
  rw [calculate_pay_summary_eq "14:00" "17:00" r _ _ parse_1400 parse_1700,
    workedPair_1400_1700]
  norm_num

lemma calc_2300_0100 (r : ℚ) :
    calculate_pay_summary "23:00" "01:00" r
      = some { regular_hours := 1 / 2, overtime_hours := 1,
               total_pay := 1 / 2 * r + 1 * r * (3 / 2) } := by
  rw [calculate_pay_summary_eq "23:00" "01:00" r _ _ parse_2300 parse_0100,
    workedPair_2300_0100]
  norm_num

lemma calc_0900_0915 (r : ℚ) :
    calculate_pay_summary "09:00" "09:15" r = none := by
  rw [calculate_pay_summary_eq "09:00" "09:15" r _ _ parse_0900 parse_0915]
  have h : workedPair ⟨9, 0, by norm_num, by norm_num⟩ ⟨9, 15, by norm_num, by norm_num⟩
      = (0, 0) := by
    unfold workedPair
    norm_num [toMinutes, normalizeEnd, MINUTES_PER_DAY, LUNCH_BREAK_MIN, deductLunch,
      segLoop_all_regular 555 540 0 0 (by norm_num) (by norm_num [OVERTIME_START_MIN])]
  rw [h]
  norm_num

/-! ## Claim theorems -/

/-- C1, counterexample: the claim that the 23:00-01:00 shift is all regular
time fails at rate 10.  The 23:00-24:00 hour lies after that day's 15:30
overtime boundary, so the code classifies it as overtime: the result is not
regular_hours = 1.5 with overtime_hours = 0. -/
theorem midnight_shift_all_regular_false :
    ¬ ∃ ps, calculate_pay_summary "23:00" "01:00" 10 = some ps ∧
        ps.regular_hours = 3 / 2 ∧ ps.overtime_hours = 0 := by
  rintro ⟨ps, hps, hreg, hot⟩
  rw [calc_2300_0100 10] at hps
  obtain rfl := Option.some.inj hps
  norm_num at hreg

/-- C1, amended: for the midnight-crossing shift 23:00-01:00 at any
nonnegative rate, calculate_pay_summary succeeds; the 23:00-24:00 segment
is overtime (it lies after the first day's 15:30 cutoff), the 00:00-01:00
segment is regular, and the 30-minute lunch comes out of the regular
segment, giving regular_hours = 0.5 and overtime_hours = 1. -/
theorem midnight_shift_2300_0100 (rate : ℚ) (hr : 0 ≤ rate) :
    ∃ ps, calculate_pay_summary "23:00" "01:00" rate = some ps ∧
      ps.regular_hours = 1 / 2 ∧ ps.overtime_hours = 1 :=
  ⟨_, calc_2300_0100 rate, rfl, rfl⟩

/-- Witness for C1 at rate 10. -/
theorem midnight_shift_2300_0100_witness :
    ∃ ps, calculate_pay_summary "23:00" "01:00" 10 = some ps ∧
      ps.regular_hours = 1 / 2 ∧ ps.overtime_hours = 1 :=
  midnight_shift_2300_0100 10 (by norm_num)

/-- C2: for valid same-day times with start before end, end at or before
15:30, and duration over 30 minutes, the summary has no overtime and
regular_hours equals the duration in hours minus the half-hour lunch. -/
theorem same_day_before_cutoff (s1 s2 : String) (r : ℚ) (t1 t2 : TimeOfDay)
    (h1 : parse_hhmm s1 = some t1) (h2 : parse_hhmm s2 = some t2)
    (hlt : toMinutes t1 < toMinutes t2) (hcut : toMinutes t2 ≤ OVERTIME_START_MIN)
    (hdur : LUNCH_BREAK_MIN < toMinutes t2 - toMinutes t1) :
    ∃ ps, calculate_pay_summary s1 s2 r = some ps ∧
      ps.overtime_hours = 0 ∧
      ps.regular_hours = ((toMinutes t2 : ℚ) - (toMinutes t1 : ℚ)) / 60 - 1 / 2 := by
  have hnorm : normalizeEnd (toMinutes t1) (toMinutes t2) = toMinutes t2 := by
    unfold normalizeEnd
    rw [if_neg (by omega)]
  have hseg : segLoop (toMinutes t2) (toMinutes t1) 0 0
      = (toMinutes t2 - toMinutes t1, 0) := by
    have h := segLoop_all_regular (toMinutes t2) (toMinutes t1) 0 0 hlt hcut
    simpa using h
  have hwp : workedPair t1 t2 = (toMinutes t2 - toMinutes t1 - LUNCH_BREAK_MIN, 0) := by
    unfold workedPair
    dsimp only
    rw [hnorm, hseg, deductLunch_eq]
    dsimp only
    have hmin : min LUNCH_BREAK_MIN (toMinutes t2 - toMinutes t1) = LUNCH_BREAK_MIN :=
      min_eq_left (by omega)
    rw [hmin, Prod.mk.injEq]
    refine ⟨rfl, by omega⟩
  rw [calculate_pay_summary_eq s1 s2 r t1 t2 h1 h2, hwp]
  dsimp only
  rw [if_neg (by omega)]
  refine ⟨_, rfl, by norm_num, ?_⟩
  show ((toMinutes t2 - toMinutes t1 - LUNCH_BREAK_MIN : ℕ) : ℚ) / 60
      = ((toMinutes t2 : ℚ) - (toMinutes t1 : ℚ)) / 60 - 1 / 2
  unfold LUNCH_BREAK_MIN at *
  rw [Nat.cast_sub (by omega), Nat.cast_sub (by omega)]
  push_cast
  ring

/-- Witness for C2 on the shift 09:00-15:00 at rate 10. -/
theorem same_day_before_cutoff_witness :
    ∃ ps, calculate_pay_summary "09:00" "15:00" 10 = some ps ∧
      ps.overtime_hours = 0 ∧
      ps.regular_hours = ((toMinutes ⟨15, 0, by norm_num, by norm_num⟩ : ℚ)
        - (toMinutes ⟨9, 0, by norm_num, by norm_num⟩ : ℚ)) / 60 - 1 / 2 :=
  same_day_before_cutoff "09:00" "15:00" 10 _ _ parse_0900 parse_1500
    (by decide) (by decide) (by decide)

/-- C3: the 14:00-17:00 shift is split by the segmentation loop into 90
regular minutes (14:00-15:30) and 90 overtime minutes (15:30-17:00); the
lunch comes from the regular side leaving minutes (60, 90), and for every
rate the total pay is 1.0 * rate + 1.5 * rate * 1.5. -/
theorem threshold_straddle_1400_1700 (rate : ℚ) :
    segLoop 1020 840 0 0 = (90, 90) ∧
    workedPair ⟨14, 0, by norm_num, by norm_num⟩ ⟨17, 0, by norm_num, by norm_num⟩
      = (60, 90) ∧
    ∃ ps, calculate_pay_summary "14:00" "17:00" rate = some ps ∧
      ps.total_pay = 1 * rate + 3 / 2 * rate * (3 / 2) :=
  ⟨segLoop_1020_840, workedPair_1400_1700, ⟨_, calc_1400_1700 rate, rfl⟩⟩

/-- Reduction of parse_hhmm once the split at the first colon is known. -/
lemma parse_hhmm_eq_of_split (s : String) (pre post : List Char)
    (hsp : splitOnceColon s.toList = some (pre, post)) :
    parse_hhmm s = (match parseUint pre, parseUint post with
      | some hh, some mm =>
        if hrange : hh < 24 ∧ mm < 60 then some ⟨hh, mm, hrange.1, hrange.2⟩ else none
      | _, _ => none) := by
  unfold parse_hhmm
  rw [hsp]

/-- C4: the time parser fails exactly when the string has no colon, a part
around the first colon does not parse as a nonnegative integer, the hour
is at least 24, or the minute is at least 60; otherwise it returns the
corresponding time of day. -/
theorem parse_hhmm_spec (s : String) :
    (parse_hhmm s = none ↔
      ((':' ∉ s.toList) ∨
       ∃ pre post, splitOnceColon s.toList = some (pre, post) ∧
         (parseUint pre = none ∨ parseUint post = none ∨
          (∃ hh, parseUint pre = some hh ∧ 24 ≤ hh) ∨
          (∃ mm, parseUint post = some mm ∧ 60 ≤ mm)))) ∧
    (∀ (pre post : List Char) (hh mm : ℕ) (hhh : hh < 24) (hmm : mm < 60),
      splitOnceColon s.toList = some (pre, post) →
      parseUint pre = some hh → parseUint post = some mm →
      parse_hhmm s = some ⟨hh, mm, hhh, hmm⟩) := by
  constructor
  · cases hsp : splitOnceColon s.toList with
    | none =>
      have hred : parse_hhmm s = none := by
        unfold parse_hhmm
        rw [hsp]
      rw [hred]
      constructor
      · intro _
        exact Or.inl ((splitOnceColon_none_iff s.toList).mp hsp)
      · intro _
        rfl
    | some pr =>
      obtain ⟨pre, post⟩ := pr
      rw [parse_hhmm_eq_of_split s pre post hsp]
      have hmem : ':' ∈ s.toList := by
        by_contra hn
        rw [← splitOnceColon_none_iff s.toList] at hn
        rw [hsp] at hn
        cases hn
      cases hpre : parseUint pre with
      | none =>
        constructor
        · intro _
          exact Or.inr ⟨pre, post, rfl, Or.inl hpre⟩
        · intro _
          rfl
      | some hh =>
        cases hpost : parseUint post with
        | none =>
          constructor
          · intro _
            exact Or.inr ⟨pre, post, rfl, Or.inr (Or.inl hpost)⟩
          · intro _
            rfl
        | some mm =>
          change (if hrange : hh < 24 ∧ mm < 60 then
              some (⟨hh, mm, hrange.1, hrange.2⟩ : TimeOfDay) else none) = none ↔ _
          by_cases hrange : hh < 24 ∧ mm < 60
          · rw [dif_pos hrange]
            constructor
            · intro hcon
              cases hcon
            · rintro (hmem2 | ⟨pre2, post2, hsp2, hbad⟩)
              · exact absurd hmem hmem2
              · injection Option.some.inj hsp2 with e1 e2
                subst e1
                subst e2
                rcases hbad with hb | hb | ⟨hh2, hsome, hge⟩ | ⟨mm2, hsome, hge⟩
                · rw [hpre] at hb
                  cases hb
                · rw [hpost] at hb
                  cases hb
                · rw [hpre] at hsome
                  have := Option.some.inj hsome
                  omega
                · rw [hpost] at hsome
                  have := Option.some.inj hsome
                  omega
          · rw [dif_neg hrange]
            constructor
            · intro _
              refine Or.inr ⟨pre, post, rfl, ?_⟩
              by_cases h24 : hh < 24
              · exact Or.inr (Or.inr (Or.inr ⟨mm, hpost, by omega⟩))
              · exact Or.inr (Or.inr (Or.inl ⟨hh, hpre, by omega⟩))
            · intro _
              rfl
  · intro pre post hh mm hhh hmm hsp hpre hpost
    rw [parse_hhmm_eq_of_split s pre post hsp]
    rw [hpre, hpost]
    show (if hrange : hh < 24 ∧ mm < 60 then some (⟨hh, mm, hrange.1, hrange.2⟩ : TimeOfDay)
      else none) = some ⟨hh, mm, hhh, hmm⟩
    rw [dif_pos ⟨hhh, hmm⟩]

/-- Witness for C4: the malformed input 9am is rejected. -/
theorem parse_hhmm_spec_witness : parse_hhmm "9am" = none :=
  (parse_hhmm_spec "9am").1.mpr (Or.inl (by decide))

/-- C5: whenever the end minutes do not exceed the start minutes the
normalizer adds a full day to the end; in particular a shift whose start
equals its end is treated as a full 1440-minute shift and the computation
succeeds rather than failing. -/
theorem rollover_full_day :
    (∀ t1 t2 : TimeOfDay, toMinutes t2 ≤ toMinutes t1 →
      normalizeEnd (toMinutes t1) (toMinutes t2) = toMinutes t2 + MINUTES_PER_DAY) ∧
    (∀ (s1 s2 : String) (r : ℚ) (t1 t2 : TimeOfDay),
      parse_hhmm s1 = some t1 → parse_hhmm s2 = some t2 →
      toMinutes t1 = toMinutes t2 →
      shiftDuration t1 t2 = MINUTES_PER_DAY ∧
      ∃ ps, calculate_pay_summary s1 s2 r = some ps) := by
  constructor
  · intro t1 t2 h
    unfold normalizeEnd
    rw [if_pos h]
  · intro s1 s2 r t1 t2 h1 h2 heq
    have hdur : shiftDuration t1 t2 = MINUTES_PER_DAY := by
      unfold shiftDuration normalizeEnd
      rw [← heq, if_pos le_rfl]
      omega
    refine ⟨hdur, ?_⟩
    have hw := workedPair_sum t1 t2
    rw [hdur] at hw
    rw [calculate_pay_summary_eq s1 s2 r t1 t2 h1 h2]
    rw [if_neg (by unfold MINUTES_PER_DAY LUNCH_BREAK_MIN at hw; omega)]
    exact ⟨_, rfl⟩

/-- Witness for C5 on the equal-endpoint shift 09:00-09:00 at rate 5. -/
theorem rollover_full_day_witness :
    shiftDuration ⟨9, 0, by norm_num, by norm_num⟩ ⟨9, 0, by norm_num, by norm_num⟩
        = MINUTES_PER_DAY ∧
    ∃ ps, calculate_pay_summary "09:00" "09:00" 5 = some ps :=
  rollover_full_day.2 "09:00" "09:00" 5 _ _ parse_0900 parse_0900 rfl

/-- C6: for every normalized shift the lunch deduction takes the minutes
from the regular accumulator first, pays any remainder from the overtime
accumulator, and in total removes exactly min(30, duration) minutes; Nat
subtraction mirrors the max(0) clamps of the source so neither component
can go below zero. -/
theorem lunch_deduction_exact (t1 t2 : TimeOfDay) :
    (workedPair t1 t2).1
        = (segLoop (normalizeEnd (toMinutes t1) (toMinutes t2)) (toMinutes t1) 0 0).1
          - min LUNCH_BREAK_MIN (shiftDuration t1 t2) ∧
    (workedPair t1 t2).2
        = (segLoop (normalizeEnd (toMinutes t1) (toMinutes t2)) (toMinutes t1) 0 0).2
          - (min LUNCH_BREAK_MIN (shiftDuration t1 t2)
              - (segLoop (normalizeEnd (toMinutes t1) (toMinutes t2)) (toMinutes t1) 0 0).1) ∧
    (workedPair t1 t2).1 + (workedPair t1 t2).2
        + min LUNCH_BREAK_MIN (shiftDuration t1 t2)
      = (segLoop (normalizeEnd (toMinutes t1) (toMinutes t2)) (toMinutes t1) 0 0).1
        + (segLoop (normalizeEnd (toMinutes t1) (toMinutes t2)) (toMinutes t1) 0 0).2 := by
  have hsum := segLoop_sum (normalizeEnd (toMinutes t1) (toMinutes t2)) (toMinutes t1) 0 0
  have hb := shiftDuration_bounds t1 t2
  unfold workedPair
  dsimp only
  rw [deductLunch_eq]
  unfold shiftDuration at *
  dsimp only
  refine ⟨rfl, rfl, ?_⟩
  unfold LUNCH_BREAK_MIN MINUTES_PER_DAY at *
  omega

/-- C7: given parsed times, failure is exactly the NoWorkableTime case
(post-deduction minutes equal to zero); shifts no longer than the lunch
always fail, the concrete 09:00-09:15 shift fails at every rate, and any
produced summary has strictly positive post-deduction minutes. -/
theorem no_workable_time_spec :
    (∀ (s1 s2 : String) (r : ℚ) (t1 t2 : TimeOfDay),
      parse_hhmm s1 = some t1 → parse_hhmm s2 = some t2 →
      (calculate_pay_summary s1 s2 r = none ↔
        (workedPair t1 t2).1 + (workedPair t1 t2).2 = 0)) ∧
    (∀ (s1 s2 : String) (r : ℚ) (t1 t2 : TimeOfDay),
      parse_hhmm s1 = some t1 → parse_hhmm s2 = some t2 →
      shiftDuration t1 t2 ≤ LUNCH_BREAK_MIN → calculate_pay_summary s1 s2 r = none) ∧
    (∀ r : ℚ, calculate_pay_summary "09:00" "09:15" r = none) ∧
    (∀ (s1 s2 : String) (r : ℚ) (ps : PaySummary) (t1 t2 : TimeOfDay),
      parse_hhmm s1 = some t1 → parse_hhmm s2 = some t2 →
      calculate_pay_summary s1 s2 r = some ps →
      0 < (workedPair t1 t2).1 + (workedPair t1 t2).2) := by
  have hiff : ∀ (s1 s2 : String) (r : ℚ) (t1 t2 : TimeOfDay),
      parse_hhmm s1 = some t1 → parse_hhmm s2 = some t2 →
      (calculate_pay_summary s1 s2 r = none ↔
        (workedPair t1 t2).1 + (workedPair t1 t2).2 = 0) := by
    intro s1 s2 r t1 t2 h1 h2
    rw [calculate_pay_summary_eq s1 s2 r t1 t2 h1 h2]
    by_cases hz : (workedPair t1 t2).1 + (workedPair t1 t2).2 = 0
    · rw [if_pos hz]
      simp [hz]
    · rw [if_neg hz]
      simp [hz]
  have hshort : ∀ (s1 s2 : String) (r : ℚ) (t1 t2 : TimeOfDay),
      parse_hhmm s1 = some t1 → parse_hhmm s2 = some t2 →
      shiftDuration t1 t2 ≤ LUNCH_BREAK_MIN → calculate_pay_summary s1 s2 r = none := by
    intro s1 s2 r t1 t2 h1 h2 hd
    rw [hiff s1 s2 r t1 t2 h1 h2]
    have hw := workedPair_sum t1 t2
    omega
  refine ⟨hiff, hshort, fun r => calc_0900_0915 r, ?_⟩
  intro s1 s2 r ps t1 t2 h1 h2 hps
  by_contra hz
  have hz2 : (workedPair t1 t2).1 + (workedPair t1 t2).2 = 0 := by omega
  have hcon := (hiff s1 s2 r t1 t2 h1 h2).mpr hz2
  rw [hps] at hcon
  cases hcon

/-- Witness for C7: the 15-minute shift 09:00-09:15 yields no summary. -/
theorem no_workable_time_witness : calculate_pay_summary "09:00" "09:15" 7 = none :=
  no_workable_time_spec.2.2.1 7

/-- A successful computation presupposes that both time strings parse. -/
lemma calc_some_parse (s1 s2 : String) (r : ℚ) (ps : PaySummary)
    (h : calculate_pay_summary s1 s2 r = some ps) :
    ∃ t1 t2, parse_hhmm s1 = some t1 ∧ parse_hhmm s2 = some t2 := by
  unfold calculate_pay_summary at h
  cases hp1 : parse_hhmm s1 with
  | none =>
    rw [hp1] at h
    simp at h
  | some t1 =>
    cases hp2 : parse_hhmm s2 with
    | none =>
      rw [hp1, hp2] at h
      simp at h
    | some t2 => exact ⟨t1, t2, rfl, rfl⟩

/-- C8: for a fixed pair of time strings on which the computation succeeds,
total_pay is strictly increasing in the hourly rate. -/
theorem total_pay_strict_mono (s1 s2 : String) (r1 r2 : ℚ) (ps1 ps2 : PaySummary)
    (h1 : calculate_pay_summary s1 s2 r1 = some ps1)
    (h2 : calculate_pay_summary s1 s2 r2 = some ps2)
    (hr : r1 < r2) : ps1.total_pay < ps2.total_pay := by
  obtain ⟨t1, t2, hp1, hp2⟩ := calc_some_parse s1 s2 r1 ps1 h1
  rw [calculate_pay_summary_eq s1 s2 r1 t1 t2 hp1 hp2] at h1
  rw [calculate_pay_summary_eq s1 s2 r2 t1 t2 hp1 hp2] at h2
  by_cases hz : (workedPair t1 t2).1 + (workedPair t1 t2).2 = 0
  · rw [if_pos hz] at h1
    cases h1
  · rw [if_neg hz] at h1 h2
    obtain rfl := Option.some.inj h1
    obtain rfl := Option.some.inj h2
    dsimp only
    have hA : (0 : ℚ) ≤ ((workedPair t1 t2).1 : ℚ) := Nat.cast_nonneg _
    have hB : (0 : ℚ) ≤ ((workedPair t1 t2).2 : ℚ) := Nat.cast_nonneg _
    have hAB : (0 : ℚ) < ((workedPair t1 t2).1 : ℚ) + ((workedPair t1 t2).2 : ℚ) := by
      have hp : 0 < (workedPair t1 t2).1 + (workedPair t1 t2).2 := Nat.pos_of_ne_zero hz
      exact_mod_cast hp
    have hc : (0 : ℚ) < ((workedPair t1 t2).1 : ℚ) / 60
        + ((workedPair t1 t2).2 : ℚ) / 60 * (3 / 2) := by
      linarith
    have key := mul_lt_mul_of_pos_left hr hc
    ring_nf at key ⊢
    linarith

/-- Witness for C8 on the shift 14:00-17:00 at rates 1 and 2. -/
theorem total_pay_strict_mono_witness :
    (⟨1, 3 / 2, 1 * 1 + 3 / 2 * 1 * (3 / 2)⟩ : PaySummary).total_pay
      < (⟨1, 3 / 2, 1 * 2 + 3 / 2 * 2 * (3 / 2)⟩ : PaySummary).total_pay :=
  total_pay_strict_mono "14:00" "17:00" 1 2 _ _ (calc_1400_1700 1) (calc_1400_1700 2)
    (by norm_num)

/-- C9: the segmentation loop terminates (it is a total function) and,
before the lunch deduction, conserves the interval exactly: the two
accumulated components sum to the normalized duration; both components
are Nat and hence nonnegative. -/
theorem segmentation_conserves (t1 t2 : TimeOfDay) :
    (segLoop (normalizeEnd (toMinutes t1) (toMinutes t2)) (toMinutes t1) 0 0).1
      + (segLoop (normalizeEnd (toMinutes t1) (toMinutes t2)) (toMinutes t1) 0 0).2
      = normalizeEnd (toMinutes t1) (toMinutes t2) - toMinutes t1 := by
  have h := segLoop_sum (normalizeEnd (toMinutes t1) (toMinutes t2)) (toMinutes t1) 0 0
  omega

/-- C10: for parsed times the normalized duration lies in the interval
from 1 to 1440 minutes, so the ZeroOrNegativeDuration guard can never
fire: for parsed inputs the only way the computation returns none is the
NoWorkableTime condition on the post-deduction minutes. -/
theorem duration_guard_unreachable :
    (∀ t1 t2 : TimeOfDay,
      1 ≤ shiftDuration t1 t2 ∧ shiftDuration t1 t2 ≤ MINUTES_PER_DAY) ∧
    (∀ (s1 s2 : String) (r : ℚ) (t1 t2 : TimeOfDay),
      parse_hhmm s1 = some t1 → parse_hhmm s2 = some t2 →
      calculate_pay_summary s1 s2 r = none →
      (workedPair t1 t2).1 + (workedPair t1 t2).2 = 0) := by
  refine ⟨fun t1 t2 => shiftDuration_bounds t1 t2, ?_⟩
  intro s1 s2 r t1 t2 h1 h2 hnone
  rw [calculate_pay_summary_eq s1 s2 r t1 t2 h1 h2] at hnone
  by_cases hz : (workedPair t1 t2).1 + (workedPair t1 t2).2 = 0
  · exact hz
  · rw [if_neg hz] at hnone
    cases hnone

/-- Witness for C10 on the 09:00-09:15 shift at rate 1. -/
theorem duration_guard_unreachable_witness :
    (workedPair ⟨9, 0, by norm_num, by norm_num⟩ ⟨9, 15, by norm_num, by norm_num⟩).1
      + (workedPair ⟨9, 0, by norm_num, by norm_num⟩ ⟨9, 15, by norm_num, by norm_num⟩).2
      = 0 :=
  duration_guard_unreachable.2 "09:00" "09:15" 1 _ _ parse_0900 parse_0915
    (calc_0900_0915 1)
